import Mathlib

set_option maxHeartbeats 1000000

/-! Verification development for the gauntlet research loop.

Shallow embedding of the code in src/state.py, src/orchestrator.py, src/agents.py,
src/source_manager.py and src/utils.py. Conventions: Python floats and wall-clock
times are modelled as rationals, Python dicts as association lists that preserve
insertion order, raised-and-caught exceptions as Option/Except results, and the
LangGraph reducer application (operator.add appends annotated list fields,
merge_usage merges token_usage, any other key present in a node's returned dict
replaces the previous value) is inlined into each node function, which therefore
returns the post-transition state. Each LLM-produced value consumed by a node is
passed to the node model as an explicit parameter. -/

/-- Model of the ResearchQuestion TypedDict (src/state.py lines 25-31). Question
ids and depths are the non-negative integers the code assigns. -/
structure ResearchQuestion where
  id : Nat
  question : String
  priority : Nat
  status : String
  depth : Nat
  parent_id : Option Nat
  deriving Repr, DecidableEq

/-- Model of the SourceMetadata TypedDict (src/state.py lines 33-38); the float
quality score is modelled as a rational. -/
structure SourceMetadata where
  url : String
  title : String
  snippet : String
  quality_score : ℚ
  source_type : String
  deriving Repr, DecidableEq

/-- Model of one gap dict ({"related_question_id": ..., "description": ...}), the
shape fixed by the gap_analysis prompt in src/utils.py DEFAULT_PROMPTS; the
orchestrator itself treats gap values opaquely apart from list truthiness. -/
structure Gap where
  related_question_id : Option Nat
  description : String
  deriving Repr, DecidableEq

/-- Token-usage dicts {"model_name": {"input": n, "output": n, "total": n}} are
modelled as insertion-ordered association lists. -/
abbrev Usage := List (String × List (String × Int))

/-- Model of an inner-dict update in merge_usage: merged[model][k] = merged[model].get(k, 0) + v. -/
def usageEntryAdd (e : List (String × Int)) (k : String) (v : Int) : List (String × Int) :=
  if e.any (fun p => p.1 == k) then
    e.map (fun p => if p.1 == k then (p.1, p.2 + v) else p)
  else
    e ++ [(k, v)]

/-- Model of the inner loop of merge_usage over one model's counts dict. -/
def usageCountsMerge (e counts : List (String × Int)) : List (String × Int) :=
  counts.foldl (fun acc kv => usageEntryAdd acc kv.1 kv.2) e

/-- Model of merge_usage (src/state.py lines 7-23): deep additive merge of
token-usage dicts, new models appended in iteration order. -/
def merge_usage (current new_data : Usage) : Usage :=
  if current.isEmpty then new_data
  else
    new_data.foldl
      (fun merged mc =>
        if merged.any (fun p => p.1 == mc.1) then
          merged.map (fun p => if p.1 == mc.1 then (p.1, usageCountsMerge p.2 mc.2) else p)
        else
          merged ++ [mc])
      current

/-- Model of the ResearchState TypedDict (src/state.py lines 40-69). The
Annotated reducers (operator.add for logs, sources, knowledge_fragments and
structured_entities; merge_usage for token_usage) are applied inside the node
models. knowledge_fragments and structured_entities hold Dict[str, Any] values
never inspected by the loop; they are modelled as string association lists. -/
structure ResearchState where
  research_topic : String
  user_constraints : List (String × String)
  model_id : String
  current_phase : String
  is_complete : Bool
  iteration_count : Nat
  logs : List String
  sources : List SourceMetadata
  knowledge_fragments : List (List (String × String))
  structured_entities : List (List (String × String))
  token_usage : Usage
  research_questions : List ResearchQuestion
  identified_gaps : List Gap
  source_quality_avg : ℚ
  final_report : String
  deriving Repr, DecidableEq

/-- Model of ResearchOrchestrator.should_continue (src/orchestrator.py lines
116-130). max_iterations is the value the code reads from
settings["parameters"]["max_iterations"] (default 50). -/
def should_continue (max_iterations : Nat) (s : ResearchState) : String :=
  let pending := s.research_questions.filter (fun q => q.status == "pending")
  if pending.isEmpty then "finish"
  else if max_iterations ≤ s.iteration_count then "finish"
  else "continue"

/-- Model of ResearchOrchestrator.gap_analysis_node (src/orchestrator.py lines
256-277). gapAgentOut is the gap agent's output for the branch with pending
questions; usageDelta is the trackers' token-usage delta. Vector-store retrieval
only feeds the gap agent's LLM call and has no other effect on the state. -/
def gap_analysis_node (gapAgentOut : List Gap) (usageDelta : Usage) (s : ResearchState) : ResearchState :=
  let active := s.research_questions.filter (fun q => q.status == "pending")
  if active.isEmpty then
    { s with identified_gaps := [],
             iteration_count := s.iteration_count + 1,
             token_usage := merge_usage s.token_usage usageDelta }
  else
    { s with identified_gaps := gapAgentOut,
             iteration_count := s.iteration_count + 1,
             logs := s.logs ++ ["Gaps identified: " ++ toString gapAgentOut.length],
             token_usage := merge_usage s.token_usage usageDelta }

/-- N chained GapAnalysis passes; outs supplies each pass's agent output and
usage delta (pass k uses outs k). -/
def gap_analysis_passes (outs : Nat → List Gap × Usage) : Nat → ResearchState → ResearchState
  | 0, s => s
  | n + 1, s => gap_analysis_passes outs n (gap_analysis_node (outs n).1 (outs n).2 s)

/-- Model of the sources reducer: the field is declared
Annotated[List[SourceMetadata], operator.add] (src/state.py line 56), so
LangGraph folds a branch's returned sources into the accumulated state by list
concatenation. -/
def sources_reducer (current new_sources : List SourceMetadata) : List SourceMetadata :=
  current ++ new_sources

/-- Accumulated result of applying both concurrent discovery branches' source
outputs to the prior state in a given application order (first_branch applied
first). -/
def merge_branch_sources (prior first_branch second_branch : List SourceMetadata) : List SourceMetadata :=
  sources_reducer (sources_reducer prior first_branch) second_branch

/-- Candidate follow-up data produced by the gap-to-question planning agent:
decompose_node reads nq["question"], nq.get("priority", 2) and
nq.get("related_question_id") (src/orchestrator.py lines 145-160). -/
structure GapQuestionData where
  question : String
  priority : Option Nat
  related_question_id : Option Nat
  deriving Repr, DecidableEq

/-- Candidate initial-question data produced by DecomposeTopicAgent.run:
decompose_node reads q["question"] and q.get("priority", 1)
(src/orchestrator.py lines 176-186). -/
structure InitQuestionData where
  question : String
  priority : Option Nat
  deriving Repr, DecidableEq

/-- Model of max([q['id'] for q in current_questions]) if current_questions
else 0 (src/orchestrator.py line 143); over Nat ids the fold from 0 agrees with
Python's max on a non-empty list and with the guarded 0 on an empty one. -/
def maxQuestionId (qs : List ResearchQuestion) : Nat :=
  qs.foldl (fun m q => max m q.id) 0

/-- Model of one turn of the new-question loop in the gap branch of
decompose_node (src/orchestrator.py lines 145-160): the parent's depth is looked
up by the candidate's related_question_id when that id is truthy (Python
treats a missing id and id 0 alike), next((q for q in current_questions if
q['id'] == related_q_id), None) is the first match, and the new question gets
the next id with status "pending". -/
def mkFollowUp (current : List ResearchQuestion) (idv : Nat) (nq : GapQuestionData) : ResearchQuestion :=
  let parent_depth :=
    match nq.related_question_id with
    | none => 0
    | some rid =>
        if rid = 0 then 0
        else
          match current.find? (fun q => q.id == rid) with
          | some parent => parent.depth
          | none => 0
  { id := idv, question := nq.question, priority := nq.priority.getD 2,
    status := "pending", depth := parent_depth + 1, parent_id := nq.related_question_id }

/-- Model of the whole new-question loop: max_id increments before each append,
so ids continue max_id + 1, max_id + 2, ... in candidate order. -/
def buildFollowUps (current : List ResearchQuestion) (max_id : Nat) : List GapQuestionData → List ResearchQuestion
  | [] => []
  | nq :: rest => mkFollowUp current (max_id + 1) nq :: buildFollowUps current (max_id + 1) rest

/-- Model of the status flip in decompose_node (src/orchestrator.py lines
162-163): every pending question becomes analyzed, others are untouched. The
Python loop mutates statuses after the new questions are built, but the loop
that builds them reads only ids and depths, so building from the unmutated list
and mapping the flip afterwards is the same function. -/
def markAnalyzed (q : ResearchQuestion) : ResearchQuestion :=
  if q.status == "pending" then { q with status := "analyzed" } else q

/-- Model of the initial formatting loop (src/orchestrator.py lines 177-186)
starting at index i: ids are i + 1, i + 2, ..., depth 0, no parent. -/
def formatInitialFrom (i : Nat) : List InitQuestionData → List ResearchQuestion
  | [] => []
  | q :: rest =>
      { id := i + 1, question := q.question, priority := q.priority.getD 1,
        status := "pending", depth := 0, parent_id := none } :: formatInitialFrom (i + 1) rest

/-- Model of the enumerate-based formatting of DecomposeTopicAgent.run output. -/
def formatInitial (qs : List InitQuestionData) : List ResearchQuestion :=
  formatInitialFrom 0 qs

/-- Model of ResearchOrchestrator.decompose_node (src/orchestrator.py lines
132-193). gapAgentQuestions models the return value of
decompose_agent.generate_from_gaps(gaps), consumed only in the gap branch;
decomposeAgentQuestions models decompose_agent.run(topic, constraints),
consumed only in the fallback branch; usageDelta is the tracker delta. The
manual-plan branch additionally returns an "iteration_status" key that is not
part of the ResearchState schema and never read, so it is not modelled. -/
def decompose_node (gapAgentQuestions : List GapQuestionData)
    (decomposeAgentQuestions : List InitQuestionData)
    (usageDelta : Usage) (s : ResearchState) : ResearchState :=
  if s.identified_gaps ≠ [] ∧ 0 < s.iteration_count then
    let current := s.research_questions
    let new_questions := buildFollowUps current (maxQuestionId current) gapAgentQuestions
    { s with research_questions := current.map markAnalyzed ++ new_questions,
             logs := s.logs ++
               ["Generated " ++ toString new_questions.length ++ " follow-up questions from gaps."],
             token_usage := merge_usage s.token_usage usageDelta }
  else if s.iteration_count = 0 ∧ s.research_questions ≠ [] then
    { s with logs := s.logs ++ ["Starting with manual plan."],
             token_usage := merge_usage s.token_usage usageDelta }
  else
    let formatted := formatInitial decomposeAgentQuestions
    { s with research_questions := formatted,
             logs := s.logs ++ ["Generated " ++ toString formatted.length ++ " initial questions."],
             token_usage := merge_usage s.token_usage usageDelta }

/-- Model of the quality agent's return value {"sources": ..., "average_score": ...}
(src/agents.py line 185). -/
structure QualityResult where
  sources : List SourceMetadata
  average_score : ℚ
  deriving Repr, DecidableEq

/-- Model of ResearchOrchestrator.web_search_node (src/orchestrator.py lines
195-218). max_gap_iterations is settings["parameters"]["max_gap_iterations"]
(default 3); quality models the quality agent's output on the searched
candidates; vector-store writes do not touch the graph state. -/
def web_search_node (max_gap_iterations : Nat) (quality : QualityResult)
    (usageDelta : Usage) (s : ResearchState) : ResearchState :=
  let active := s.research_questions.filter
    (fun q => q.status == "pending" && decide (q.depth < max_gap_iterations))
  if active.isEmpty then
    { s with logs := s.logs ++ ["No active questions for search."],
             token_usage := merge_usage s.token_usage usageDelta }
  else
    { s with sources := sources_reducer s.sources quality.sources,
             source_quality_avg := quality.average_score,
             logs := s.logs ++
               ["Web branch searched " ++ toString active.length ++ " questions, found " ++
                 toString quality.sources.length ++ " sources."],
             token_usage := merge_usage s.token_usage usageDelta }

/-- Model of ResearchOrchestrator.academic_node (src/orchestrator.py lines
220-238); academic models the academic agent's output list. -/
def academic_node (max_gap_iterations : Nat) (academic : List SourceMetadata)
    (usageDelta : Usage) (s : ResearchState) : ResearchState :=
  let active := s.research_questions.filter
    (fun q => q.status == "pending" && decide (q.depth < max_gap_iterations))
  if active.isEmpty then
    { s with logs := s.logs ++ ["Skipping academic search."],
             token_usage := merge_usage s.token_usage usageDelta }
  else
    { s with sources := sources_reducer s.sources academic,
             logs := s.logs ++ ["Academic branch found " ++ toString academic.length ++ " papers."],
             token_usage := merge_usage s.token_usage usageDelta }

/-- Model of ResearchOrchestrator.knowledge_graph_node (src/orchestrator.py
lines 240-254); entities models the knowledge-graph agent's output. -/
def knowledge_graph_node (entities : List (List (String × String)))
    (usageDelta : Usage) (s : ResearchState) : ResearchState :=
  let active := s.research_questions.filter (fun q => q.status == "pending")
  if active.isEmpty then
    { s with token_usage := merge_usage s.token_usage usageDelta }
  else
    { s with structured_entities := s.structured_entities ++ entities,
             logs := s.logs ++ ["Extracted " ++ toString entities.length ++ " structured entities."],
             token_usage := merge_usage s.token_usage usageDelta }

/-- Modelled from the spec: DecomposeTopicAgent.generate_from_gaps is called at
src/orchestrator.py line 141 but its definition is missing from src/. Spec
section 4.5 (ExpandGaps): "for each gap, derive one or more follow-up
questions; ... set parent_id = gap.related_question_id", and the
gap_to_question prompt (src/utils.py) demands each derived question carry the
gap's related_question_id. followUpTexts supplies the model-derived question
texts and priorities for each gap (the spec requires one or more per gap). -/
def generate_from_gaps (followUpTexts : Gap → List (String × Option Nat))
    (gaps : List Gap) : List GapQuestionData :=
  gaps.flatMap (fun g =>
    (followUpTexts g).map (fun t =>
      { question := t.1, priority := t.2, related_question_id := g.related_question_id }))

/-- Convenient concrete state used to instantiate universally quantified
theorems at an explicit input. -/
def baseState : ResearchState :=
  { research_topic := "solid state batteries"
  , user_constraints := []
  , model_id := "m"
  , current_phase := ""
  , is_complete := false
  , iteration_count := 0
  , logs := []
  , sources := []
  , knowledge_fragments := []
  , structured_entities := []
  , token_usage := []
  , research_questions := []
  , identified_gaps := []
  , source_quality_avg := 0
  , final_report := "" }

/-- Question constructor shorthand for concrete instances. -/
def mkQ (i : Nat) (txt : String) (st : String) (d : Nat) (pid : Option Nat) : ResearchQuestion :=
  { id := i, question := txt, priority := 1, status := st, depth := d, parent_id := pid }

/-- Concrete state at iteration 1 with an empty gap list and one surviving
question; decompose_node routes this to the fallback re-decomposition branch. -/
def replanState : ResearchState :=
  { baseState with
    iteration_count := 1,
    research_questions := [mkQ 1 "original question" "analyzed" 0 none],
    identified_gaps := [] }

/-- Opening curly brace character. -/
def lbrace : Char := Char.ofNat 123

/-- Closing curly brace character. -/
def rbrace : Char := Char.ofNat 125

/-- Backtick character. -/
def tickChar : Char := Char.ofNat 96

/-- JSON values as decoded by Python json.loads. Numbers keep their source
lexeme (Python converts them to int/float machine values; no caller of the
extraction helpers inspects numeric magnitudes, and IEEE floats are outside
this embedding, NaN/Infinity included). Objects are insertion-ordered
association lists built with Python dict update semantics, so keys are unique
and a duplicate key in the source text keeps the last value at the first
position, as CPython does. -/
inductive Json where
  | null : Json
  | bool : Bool → Json
  | num : String → Json
  | str : String → Json
  | arr : List Json → Json
  | obj : List (String × Json) → Json

/-- Whitespace skipped by the json module between tokens: space, tab, newline,
carriage return (json.decoder WHITESPACE). -/
def jsonWsChar (c : Char) : Bool :=
  c == ' ' || c == '\t' || c == '\n' || c == '\r'

/-- Model of the whitespace skip between JSON tokens. -/
def skipJsonWs (cs : List Char) : List Char :=
  cs.dropWhile jsonWsChar

/-- Hex digit value, as accepted in a backslash-u escape. -/
def hexVal (c : Char) : Option Nat :=
  if c.isDigit then some (c.toNat - 48)
  else if 'a' ≤ c ∧ c ≤ 'f' then some (c.toNat - 87)
  else if 'A' ≤ c ∧ c ≤ 'F' then some (c.toNat - 55)
  else none

/-- Single-character JSON string escapes (the BACKSLASH table in
json.decoder); any other escape character is a decode error. -/
def escChar (c : Char) : Option Char :=
  if c == '\"' then some '\"'
  else if c == '\\' then some '\\'
  else if c == '/' then some '/'
  else if c == 'b' then some (Char.ofNat 8)
  else if c == 'f' then some (Char.ofNat 12)
  else if c == 'n' then some '\n'
  else if c == 'r' then some '\r'
  else if c == 't' then some '\t'
  else none

/-- Code point to Char; a lone surrogate (which a Python str can hold but a
Lean Char cannot) is rendered as U+FFFD. -/
def jsonChar (code : Nat) : Char :=
  if code < 55296 ∨ (57343 < code ∧ code < 1114112) then Char.ofNat code
  else Char.ofNat 65533

/-- Four-hex-digit escape payload, as json.decoder._decode_uXXXX. -/
def parseU (cs : List Char) : Option (Nat × List Char) :=
  match cs with
  | h1 :: h2 :: h3 :: h4 :: rest =>
      match hexVal h1, hexVal h2, hexVal h3, hexVal h4 with
      | some a, some b, some c, some d => some (((a * 16 + b) * 16 + c) * 16 + d, rest)
      | _, _, _, _ => none
  | _ => none

/-- Model of json.decoder.py_scanstring after the opening quote, strict mode:
returns the decoded characters and the remainder after the closing quote.
Unescaped control characters below 0x20, bad escapes and a missing terminator
are decode errors; a high surrogate escape followed by a low surrogate escape
is combined exactly as CPython combines them, and the following \u escape is
left unconsumed when it is not a low surrogate. -/
def parseStringBody : Nat → List Char → Option (List Char × List Char)
  | 0, _ => none
  | _, [] => none
  | fuel + 1, c :: cs =>
      if c == '\"' then some ([], cs)
      else if c == '\\' then
        match cs with
        | [] => none
        | e :: cs2 =>
            if e == 'u' then
              match parseU cs2 with
              | none => none
              | some (code, cs3) =>
                  if 55296 ≤ code ∧ code ≤ 56319 then
                    match cs3 with
                    | sl1 :: sl2 :: cs4 =>
                        if sl1 == '\\' && sl2 == 'u' then
                          match parseU cs4 with
                          | none => none
                          | some (low, cs5) =>
                              if 56320 ≤ low ∧ low ≤ 57343 then
                                (parseStringBody fuel cs5).map
                                  (fun p => (jsonChar (65536 + (code - 55296) * 1024 + (low - 56320)) :: p.1, p.2))
                              else
                                (parseStringBody fuel cs3).map (fun p => (jsonChar code :: p.1, p.2))
                        else
                          (parseStringBody fuel cs3).map (fun p => (jsonChar code :: p.1, p.2))
                    | _ =>
                        (parseStringBody fuel cs3).map (fun p => (jsonChar code :: p.1, p.2))
                  else
                    (parseStringBody fuel cs3).map (fun p => (jsonChar code :: p.1, p.2))
            else
              match escChar e with
              | some d => (parseStringBody fuel cs2).map (fun p => (d :: p.1, p.2))
              | none => none
      else if c.toNat < 32 then none
      else (parseStringBody fuel cs).map (fun p => (c :: p.1, p.2))

/-- Longest digit run and the remainder. -/
def spanDigits : List Char → List Char × List Char
  | [] => ([], [])
  | c :: cs =>
      if c.isDigit then
        let p := spanDigits cs
        (c :: p.1, p.2)
      else ([], c :: cs)

/-- Optional fraction and exponent of a JSON number, by maximal munch of the
NUMBER_RE optional groups: a group that cannot complete contributes nothing. -/
def numTail (rest : List Char) : List Char × List Char :=
  let fracP : List Char × List Char :=
    match rest with
    | c :: r =>
        if c == '.' then
          let p := spanDigits r
          if p.1.isEmpty then ([], rest) else ('.' :: p.1, p.2)
        else ([], rest)
    | [] => ([], rest)
  let rest1 := fracP.2
  let expP : List Char × List Char :=
    match rest1 with
    | c :: r =>
        if c == 'e' || c == 'E' then
          match r with
          | s :: r2 =>
              if s == '+' || s == '-' then
                let p := spanDigits r2
                if p.1.isEmpty then ([], rest1) else (c :: s :: p.1, p.2)
              else
                let p := spanDigits r
                if p.1.isEmpty then ([], rest1) else (c :: p.1, p.2)
          | [] => ([], rest1)
        else ([], rest1)
    | [] => ([], rest1)
  (fracP.1 ++ expP.1, expP.2)

/-- Model of the json.decoder NUMBER_RE match at the current position:
-?(0|[1-9][0-9]*)(\.[0-9]+)?([eE][-+]?[0-9]+)?, returning the matched lexeme.
A leading zero ends the integer part immediately, as the regex alternation
does. -/
def parseNumber (cs : List Char) : Option (String × List Char) :=
  let signP : List Char × List Char :=
    match cs with
    | c :: r => if c == '-' then (['-'], r) else ([], cs)
    | [] => ([], cs)
  match signP.2 with
  | c :: r =>
      if c == '0' then
        let t := numTail r
        some (String.mk (signP.1 ++ ['0'] ++ t.1), t.2)
      else if c.isDigit then
        let p := spanDigits signP.2
        let t := numTail p.2
        some (String.mk (signP.1 ++ p.1 ++ t.1), t.2)
      else none
  | [] => none

/-- Literal keyword expectation in the value scanner. -/
def expectChars (lit : List Char) (cs : List Char) : Option (List Char) :=
  if cs.take lit.length = lit then some (cs.drop lit.length) else none

/-- Python dict insertion: a fresh key is appended, an existing key keeps its
position and takes the new value. -/
def objInsert (fields : List (String × Json)) (k : String) (v : Json) : List (String × Json) :=
  if fields.any (fun p => p.1 == k) then
    fields.map (fun p => if p.1 == k then (p.1, v) else p)
  else fields ++ [(k, v)]

mutual

/-- Model of json.scanner.py_make_scanner scan_once at a position with
leading whitespace already consumed, with CPython's default constants
(NaN, Infinity, -Infinity accepted). Fuel bounds nesting depth; json_loads
passes more fuel than the input length, which one nesting level at least one
character wide can never exhaust. -/
def parseValue : Nat → List Char → Option (Json × List Char)
  | 0, _ => none
  | fuel + 1, cs =>
      match cs with
      | [] => none
      | c :: rest =>
          if c == '\"' then
            (parseStringBody (rest.length + 1) rest).map (fun p => (Json.str (String.mk p.1), p.2))
          else if c == '[' then
            let cs1 := skipJsonWs rest
            match cs1 with
            | d :: r1 =>
                if d == ']' then some (Json.arr [], r1)
                else (parseArrayItems fuel cs1 []).map (fun p => (Json.arr p.1, p.2))
            | [] => none
          else if c == lbrace then
            let cs1 := skipJsonWs rest
            match cs1 with
            | d :: r1 =>
                if d == rbrace then some (Json.obj [], r1)
                else (parseObjItems fuel cs1 []).map (fun p => (Json.obj p.1, p.2))
            | [] => none
          else if c == 't' then
            (expectChars ['r', 'u', 'e'] rest).map (fun r => (Json.bool true, r))
          else if c == 'f' then
            (expectChars ['a', 'l', 's', 'e'] rest).map (fun r => (Json.bool false, r))
          else if c == 'n' then
            (expectChars ['u', 'l', 'l'] rest).map (fun r => (Json.null, r))
          else if c == 'N' then
            (expectChars ['a', 'N'] rest).map (fun r => (Json.num "NaN", r))
          else if c == 'I' then
            (expectChars ['n', 'f', 'i', 'n', 'i', 't', 'y'] rest).map (fun r => (Json.num "Infinity", r))
          else if c == '-' then
            match expectChars ['I', 'n', 'f', 'i', 'n', 'i', 't', 'y'] rest with
            | some r => some (Json.num "-Infinity", r)
            | none => (parseNumber cs).map (fun p => (Json.num p.1, p.2))
          else if c.isDigit then
            (parseNumber cs).map (fun p => (Json.num p.1, p.2))
          else none

/-- Array items after the opening bracket (whitespace before the first item
already consumed, the empty array handled by the caller): value, optional
whitespace, then a comma continuing or a bracket closing; anything else,
trailing commas included, is a decode error. -/
def parseArrayItems : Nat → List Char → List Json → Option (List Json × List Char)
  | 0, _, _ => none
  | fuel + 1, cs, acc =>
      match parseValue fuel cs with
      | none => none
      | some (v, r) =>
          let r1 := skipJsonWs r
          match r1 with
          | d :: r2 =>
              if d == ',' then parseArrayItems fuel (skipJsonWs r2) (acc ++ [v])
              else if d == ']' then some (acc ++ [v], r2)
              else none
          | [] => none

/-- Object members positioned at a key's opening quote (the empty object
handled by the caller): strict mode demands double-quoted keys, a colon, a
value, then a comma or a closing brace. -/
def parseObjItems : Nat → List Char → List (String × Json) → Option (List (String × Json) × List Char)
  | 0, _, _ => none
  | fuel + 1, cs, acc =>
      match cs with
      | q :: r =>
          if q == '\"' then
            match parseStringBody (r.length + 1) r with
            | none => none
            | some (kcs, r1) =>
                match skipJsonWs r1 with
                | colon :: r3 =>
                    if colon == ':' then
                      match parseValue fuel (skipJsonWs r3) with
                      | none => none
                      | some (v, r4) =>
                          let acc2 := objInsert acc (String.mk kcs) v
                          match skipJsonWs r4 with
                          | d :: r6 =>
                              if d == ',' then parseObjItems fuel (skipJsonWs r6) acc2
                              else if d == rbrace then some (acc2, r6)
                              else none
                          | [] => none
                    else none
                | [] => none
          else none
      | [] => none

end

/-- Model of json.loads on a str (src/utils.py and src/agents.py call sites):
parse one value after leading whitespace, then demand only whitespace follows
("Extra data" otherwise); any failure is the raised-and-caught
json.JSONDecodeError, returned as none. CPython additionally raises an
uncatchable-here RecursionError past its recursion limit on deeply nested
input; resource exhaustion is outside this embedding. -/
def json_loads (s : String) : Option Json :=
  let cs := skipJsonWs s.toList
  match parseValue (cs.length + 1) cs with
  | some (v, rest) => if (skipJsonWs rest).isEmpty then some v else none
  | none => none

/-- Whitespace class of Python's re module on str for the patterns in use,
ASCII part: space, tab, newline, carriage return, vertical tab, form feed
(further Unicode whitespace is not modelled; the agent prompts and replies
under extraction are ASCII-framed). -/
def pyWs (c : Char) : Bool :=
  c == ' ' || c == '\t' || c == '\n' || c == '\r' || c == Char.ofNat 11 || c == Char.ofNat 12

/-- Characters with the leading and trailing pyWs runs removed. -/
def trimPyWs (cs : List Char) : List Char :=
  ((cs.dropWhile pyWs).reverse.dropWhile pyWs).reverse

/-- Splits at the first occurrence of three consecutive backticks, returning
the text before it and the text after it. -/
def splitAtTicks : List Char → Option (List Char × List Char)
  | [] => none
  | c :: cs =>
      if c == tickChar then
        match cs with
        | d :: e :: rest =>
            if d == tickChar && e == tickChar then some ([], rest)
            else
              match splitAtTicks cs with
              | some p => some (c :: p.1, p.2)
              | none => none
        | _ => none
      else
        match splitAtTicks cs with
        | some p => some (c :: p.1, p.2)
        | none => none

/-- Model of the first extraction tier's search (src/utils.py line 150),
returning capture group 1 of a search for a backtick fence, an optional json
tag, lazily captured content and a closing fence. The leftmost opening fence
with some closing fence after it wins (backticks are not whitespace, so no
later start can produce a match when the first cannot); the greedy optional
json tag is consumed when literally present; the greedy-then-lazy whitespace
handling around the capture amounts to trimming it. -/
def fence_search (text : String) : Option String :=
  match splitAtTicks text.toList with
  | none => none
  | some (_, afterOpen) =>
      let afterTag :=
        if afterOpen.take 4 = ['j', 's', 'o', 'n'] then afterOpen.drop 4 else afterOpen
      match splitAtTicks afterTag with
      | none => none
      | some (body, _) => some (String.mk (trimPyWs body))

/-- Scan of a reversed tail for the latest closing bracket of the second
extraction tier: the first reversed position holding a closing square bracket
whose following whitespace run (scanning backwards) ends at a closing curly
brace. Returns that reversed segment. -/
def closeScan : List Char → Option (List Char)
  | [] => none
  | c :: rest =>
      if c == ']' then
        match rest.dropWhile pyWs with
        | b :: _ => if b == rbrace then some (c :: rest) else closeScan rest
        | [] => closeScan rest
      else closeScan rest

/-- Model of the second extraction tier's search (src/utils.py line 154):
re.search of a bracketed JSON list pattern, an opening square bracket,
whitespace, an opening curly brace, a greedy dot-all middle, a closing curly
brace, whitespace and a closing square bracket; returns group 0. The leftmost
viable start wins and the greedy middle picks the latest viable close. -/
def listm_search_aux : List Char → Option (List Char)
  | [] => none
  | c :: cs =>
      if c == '[' then
        match cs.dropWhile pyWs with
        | b :: bs =>
            if b == lbrace then
              match closeScan bs.reverse with
              | some revPart => some (c :: (cs.takeWhile pyWs ++ (b :: revPart.reverse)))
              | none => listm_search_aux cs
            else listm_search_aux cs
        | [] => listm_search_aux cs
      else listm_search_aux cs

/-- String-level wrapper of the second tier's search. -/
def listm_search (text : String) : Option String :=
  (listm_search_aux text.toList).map String.mk

/-- Reversed scan for the last closing curly brace. -/
def closeBraceScan : List Char → Option (List Char)
  | [] => none
  | c :: rest => if c == rbrace then some (c :: rest) else closeBraceScan rest

/-- Model of the third extraction tier's search (src/utils.py line 158):
re.search of an opening curly brace, a greedy dot-all middle and a closing
curly brace; the match runs from the first opening brace to the last closing
brace after it, and no later opening brace can match when the first cannot. -/
def objm_search_aux : List Char → Option (List Char)
  | [] => none
  | c :: cs =>
      if c == lbrace then
        match closeBraceScan cs.reverse with
        | some revPart => some (c :: revPart.reverse)
        | none => none
      else objm_search_aux cs

/-- String-level wrapper of the third tier's search. -/
def objm_search (text : String) : Option String :=
  (objm_search_aux text.toList).map String.mk

/-- Model of extract_json_from_text (src/utils.py lines 147-165): the fenced
tier, then the bracketed-list tier, then the braced-object tier, then a raw
parse of the whole text; the first tier whose pattern matches is the one whose
captured text is parsed, and a json.JSONDecodeError anywhere, the final raw
parse included, is caught and returned as none. -/
def extract_json_from_text (text : String) : Option Json :=
  match fence_search text with
  | some g => json_loads g
  | none =>
      match listm_search text with
      | some g => json_loads g
      | none =>
          match objm_search text with
          | some g => json_loads g
          | none => json_loads text

/-- Model of re.findall of a double-quoted capture of one or more non-quote
characters: each match consumes through its closing quote, an opening quote
immediately followed by another quote matches nothing there, and scanning
resumes inside as CPython's engine does. Fuel is the scanned length. -/
def quoted_findall_fuel : Nat → List Char → List String
  | 0, _ => []
  | _, [] => []
  | fuel + 1, c :: cs =>
      if c == '\"' then
        let body := cs.takeWhile (fun d => d != '\"')
        let rest := cs.dropWhile (fun d => d != '\"')
        match rest with
        | _ :: after =>
            if body.isEmpty then quoted_findall_fuel fuel cs
            else String.mk body :: quoted_findall_fuel fuel after
        | [] => []
      else quoted_findall_fuel fuel cs

/-- Quoted-phrase matches of a content string (src/agents.py line 145). -/
def quoted_findall (content : String) : List String :=
  quoted_findall_fuel content.length content.toList

/-- Characters with all leading and trailing characters satisfying p removed,
as Python str.strip with that character set. -/
def stripChars (p : Char → Bool) (cs : List Char) : List Char :=
  ((cs.dropWhile p).reverse.dropWhile p).reverse

/-- Model of item.strip().strip of double quotes then of single quotes
(src/agents.py line 148); str.strip() strips Unicode whitespace, modelled by
its ASCII part pyWs. -/
def stripQueryItem (item : String) : String :=
  String.mk (stripChars (fun c => c == '\'')
    (stripChars (fun c => c == '\"') (stripChars pyWs item.toList)))

/-- Dict lookup on a decoded JSON object. -/
def objGet (fields : List (String × Json)) (k : String) : Option Json :=
  (fields.find? (fun p => p.1 == k)).map (fun p => p.2)

/-- Model of the key loop in InitialSearchAgent._extract_queries (src/agents.py
lines 136-139): the first key of the given list present with a list value
wins; a present key with a non-list value is skipped. -/
def firstKeyList : List (String × Json) → List String → Option (List Json)
  | _, [] => none
  | fields, k :: ks =>
      match objGet fields k with
      | some (Json.arr l) => some l
      | _ => firstKeyList fields ks

/-- First tier of _extract_queries (src/agents.py lines 133-142): the decoded
queries list of a JSON object under the first matching key, a decoded JSON
list itself, or nothing; the surrounding bare except has nothing to catch in
this embedding because every modelled step is total. -/
def queriesFromJson (content : String) : List Json :=
  match extract_json_from_text content with
  | some (Json.obj fields) => (firstKeyList fields ["queries", "Queries", "\"queries\""]).getD []
  | some (Json.arr l) => l
  | _ => []

/-- Second tier of _extract_queries (src/agents.py lines 144-146): quoted
phrases whose lowercase form is not a bare queries or query token; when the
raw match list is empty the tier yields nothing (and when every match is
filtered away it also yields nothing, which Python reaches as an empty
queries list falling through). -/
def quotedTier (content : String) : List Json :=
  let ms := quoted_findall content
  if ms.isEmpty then []
  else (ms.filter (fun m => m.toLower != "queries" && m.toLower != "query")).map Json.str

/-- Third tier of _extract_queries (src/agents.py lines 147-148): naive comma
split with whitespace and quote stripping; a split always yields at least one
item, so this tier never returns an empty list. -/
def commaTier (content : String) : List Json :=
  (content.splitOn ",").map (fun item => Json.str (stripQueryItem item))

/-- Model of InitialSearchAgent._extract_queries (src/agents.py lines
131-149): the JSON tier, then the quoted-phrase tier, then the comma split,
each later tier tried exactly when the earlier ones produced an empty list. -/
def extract_queries (content : String) : List Json :=
  let queries := queriesFromJson content
  if queries.isEmpty then
    let q2 := quotedTier content
    if q2.isEmpty then commaTier content else q2
  else queries

/-- Python repr of a decoded JSON value, approximately (single-quoted strings
without re-escaping); reached only for the off-contract case of a non-string
section_text, which no prompt produces. -/
def jsonPyReprFuel : Nat → Json → String
  | 0, _ => ""
  | fuel + 1, j =>
      match j with
      | Json.null => "None"
      | Json.bool b => cond b "True" "False"
      | Json.num l => l
      | Json.str s => "'" ++ s ++ "'"
      | Json.arr xs => "[" ++ String.intercalate ", " (xs.map (jsonPyReprFuel fuel)) ++ "]"
      | Json.obj fs =>
          "\x7b" ++
            String.intercalate ", "
              (fs.map (fun p => "'" ++ p.1 ++ "': " ++ jsonPyReprFuel fuel p.2)) ++ "\x7d"

mutual

/-- Nesting depth of a decoded JSON value, an executable fuel bound for the
repr rendering. -/
def jsonDepth : Json → Nat
  | Json.arr xs => jsonDepthList xs + 1
  | Json.obj fs => jsonDepthFields fs + 1
  | _ => 1

/-- Depth over an array's items. -/
def jsonDepthList : List Json → Nat
  | [] => 0
  | x :: xs => max (jsonDepth x) (jsonDepthList xs)

/-- Depth over an object's members. -/
def jsonDepthFields : List (String × Json) → Nat
  | [] => 0
  | p :: ps => max (jsonDepth p.2) (jsonDepthFields ps)

end

/-- Python str() of a decoded JSON value: a str is itself, scalars print the
Python way, containers print via repr. -/
def jsonPyStr (j : Json) : String :=
  match j with
  | Json.str s => s
  | Json.null => "None"
  | Json.bool b => cond b "True" "False"
  | Json.num l => l
  | Json.arr _ => jsonPyReprFuel (jsonDepth j) j
  | Json.obj _ => jsonPyReprFuel (jsonDepth j) j

/-- Model of SectionWriterAgent.run (src/agents.py lines 298-314). outcome is
the section-writing LLM call's result: the raised exception's message on
failure, the reply text on success. A reply decoding to a JSON object with a
section_text member yields that member (stringified downstream); a decode
failure is swallowed and the raw reply returned; a failed call yields the
placeholder error string. -/
def sectionWriterRun (outcome : Except String String) : String :=
  match outcome with
  | Except.error e => "Error drafting section: " ++ e
  | Except.ok content =>
      match json_loads content with
      | some (Json.obj fields) =>
          match objGet fields "section_text" with
          | some v => jsonPyStr v
          | none => content
      | _ => content

/-- Model of sorted(state["research_questions"], key=id) (src/orchestrator.py
line 282): Python's stable ascending sort; insertion sort with the
less-or-equal id relation is stable the same way. -/
def sortQuestionsById (qs : List ResearchQuestion) : List ResearchQuestion :=
  List.insertionSort (fun a b => a.id ≤ b.id) qs

/-- Model of the section loop of synthesis_node (src/orchestrator.py lines
281-287): one markdown section per question ever created, in ascending id
order; writerOutcome gives each question's LLM outcome (vector-store
retrieval only feeds the writer's prompt). -/
def report_sections (writerOutcome : ResearchQuestion → Except String String)
    (qs : List ResearchQuestion) : List String :=
  (sortQuestionsById qs).map
    (fun q => "## " ++ q.question ++ "\n\n" ++ sectionWriterRun (writerOutcome q))

/-- Model of ResearchOrchestrator.synthesis_node (src/orchestrator.py lines
279-294). -/
def synthesis_node (writerOutcome : ResearchQuestion → Except String String)
    (usageDelta : Usage) (s : ResearchState) : ResearchState :=
  { s with
    final_report := "# " ++ s.research_topic ++ "\n\n" ++
      String.intercalate "\n\n" (report_sections writerOutcome s.research_questions),
    is_complete := true,
    token_usage := merge_usage s.token_usage usageDelta }

/-- Model of the rate-limiter fields set by SourceManager.__init__
(src/source_manager.py lines 29-40); perf_counter readings and delays are
rationals standing for Python floats, now is the reading at construction. -/
structure SourceManager where
  requested_delay : ℚ
  enforced_delay : ℚ
  next_available_time : ℚ
  deriving Repr, DecidableEq

/-- Model of SourceManager.__init__ with the given delay_ms argument. -/
def SourceManager.init (delay_ms : Int) (now : ℚ) : SourceManager :=
  { requested_delay := (delay_ms : ℚ) / 1000
  , enforced_delay := ((delay_ms : ℚ) / 1000) * 2
  , next_available_time := now }

/-- Model of SourceManager._wait_for_slot (src/source_manager.py lines 42-61)
inside the critical section: now is the perf_counter reading under the lock,
next_available the shared reservation; returns the sleep the caller performs
after release and the new reservation. The call completes at now + sleep. -/
def wait_for_slot (enforced_delay : ℚ) (now next_available : ℚ) : ℚ × ℚ :=
  if now < next_available then (next_available - now, next_available + enforced_delay)
  else (0, now + enforced_delay)

/-- Completions and reservations of a lock-ordered sequence of calls with the
given in-lock perf_counter readings: each emitted pair is that call's
completion time and the reservation it left behind. -/
def runSlots (d : ℚ) : ℚ → List ℚ → List (ℚ × ℚ)
  | _, [] => []
  | st, now :: rest =>
      let r := wait_for_slot d now st
      (now + r.1, r.2) :: runSlots d r.2 rest

/-- Placeholder question for default-valued list indexing in statements. -/
def defaultQ : ResearchQuestion := mkQ 0 "" "" 0 none

/-- Concrete state at iteration 0 with a manually supplied plan. -/
def manualState : ResearchState :=
  { baseState with
    research_questions := [mkQ 1 "manual question" "pending" 0 none] }

/-- Concrete fresh decomposition output used in counterexamples. -/
def freshQ : InitQuestionData := { question := "fresh topic decomposition", priority := none }

/-- Expansion contract of a planning pass over gaps: the old questions survive
in place with pending ones flipped to analyzed; the questions added after them
number at least one per gap; their ids continue consecutively from the maximum
existing id; each one is pending, carries some gap's related_question_id as
parent_id, every gap is represented, and a follow-up whose truthy parent id
resolves to an existing question sits one level below that parent. -/
def follow_up_expansion_spec (f : Gap → List (String × Option Nat))
    (dq : List InitQuestionData) (u : Usage) (s : ResearchState) : Prop :=
  let r := decompose_node (generate_from_gaps f s.identified_gaps) dq u s
  let old := s.research_questions
  let added := r.research_questions.drop old.length
  r.research_questions.take old.length = old.map markAnalyzed
  ∧ (∀ q ∈ old, q.status = "pending" →
      markAnalyzed q ∈ r.research_questions ∧ (markAnalyzed q).status = "analyzed")
  ∧ s.identified_gaps.length ≤ added.length
  ∧ added.map (fun q => q.id) = List.range' (maxQuestionId old + 1) added.length
  ∧ (∀ nq ∈ added, nq.status = "pending" ∧
      ∃ g ∈ s.identified_gaps, nq.parent_id = g.related_question_id)
  ∧ (∀ g ∈ s.identified_gaps, ∃ nq ∈ added, nq.parent_id = g.related_question_id)
  ∧ (∀ nq ∈ added, ∀ rid, nq.parent_id = some rid → rid ≠ 0 →
      ∀ p, old.find? (fun q => q.id == rid) = some p → nq.depth = p.depth + 1)

/-- Per-pair lower bound on the completion times and reservations produced by
a run of rate-limited calls (indexing with a default pair). -/
def slot_spacing_bound (d : ℚ) (rs : List (ℚ × ℚ)) (i j : Nat) : Prop :=
  (rs.getD i (0, 0)).1 + ((j - i : Nat) : ℚ) * d ≤ (rs.getD j (0, 0)).1
  ∧ (rs.getD i (0, 0)).1 + d ≤ (rs.getD j (0, 0)).1
  ∧ (rs.getD i (0, 0)).2 + ((j - i : Nat) : ℚ) * d ≤ (rs.getD j (0, 0)).2
  ∧ (rs.getD i (0, 0)).2 + d ≤ (rs.getD j (0, 0)).2
  ∧ (rs.getD 0 (0, 0)).1 + ((rs.length - 1 : Nat) : ℚ) * d ≤ (rs.getD (rs.length - 1) (0, 0)).1

/-- Concrete gap, follow-up generator and state instantiating the expansion
theorem: one gap tied to question 2 of a three-question analyzed plan. -/
def exGap : Gap := { related_question_id := some 2, description := "needs depth" }

/-- Follow-up generator returning one candidate for every gap. -/
def exFollowUps : Gap → List (String × Option Nat) :=
  fun _ => [("follow-up question", none)]

/-- State after one full pass: three analyzed questions, one gap, iteration 1. -/
def exGapState : ResearchState :=
  { baseState with
    iteration_count := 1,
    research_questions :=
      [mkQ 1 "alpha" "analyzed" 0 none, mkQ 2 "beta" "pending" 0 none,
       mkQ 3 "gamma" "analyzed" 0 none],
    identified_gaps := [exGap] }

instance : IsTotal ResearchQuestion (fun a b => a.id ≤ b.id) :=
  ⟨fun a b => Nat.le_total a.id b.id⟩

instance : IsTrans ResearchQuestion (fun a b => a.id ≤ b.id) :=
  ⟨fun _ _ _ hab hbc => Nat.le_trans hab hbc⟩

/-- C1: should_continue returns "finish" iff the state has no question with
status "pending" or iteration_count has reached max_iterations; in every other
case it returns "continue". -/
theorem should_continue_finish_iff (max_iterations : Nat) (s : ResearchState) :
    (should_continue max_iterations s = "finish" ↔
      ((s.research_questions.filter (fun q => q.status == "pending")).length = 0 ∨
        max_iterations ≤ s.iteration_count))
    ∧ (should_continue max_iterations s = "continue" ↔
      ((s.research_questions.filter (fun q => q.status == "pending")).length ≠ 0 ∧
        s.iteration_count < max_iterations)) := by
  have hfc : ("finish" : String) ≠ "continue" := by decide
  have hcf : ("continue" : String) ≠ "finish" := by decide
  unfold should_continue
  by_cases h1 : (s.research_questions.filter (fun q => q.status == "pending")).isEmpty
  · have hz : (s.research_questions.filter (fun q => q.status == "pending")).length = 0 := by
      rw [List.isEmpty_iff] at h1
      simp [h1]
    constructor
    · simp [h1, hz]
    · simp [h1, hfc, hz]
  · have hne : (s.research_questions.filter (fun q => q.status == "pending")).length ≠ 0 := by
      intro hlen
      exact h1 (by rw [List.isEmpty_iff]; exact List.length_eq_zero.mp hlen)
    by_cases h2 : max_iterations ≤ s.iteration_count
    · have hnlt : ¬ s.iteration_count < max_iterations := by omega
      constructor
      · simp [h1, h2]
      · simp [h1, h2, hfc, hnlt]
    · have hlt : s.iteration_count < max_iterations := by omega
      constructor
      · simp [h1, h2, hcf, hne]
      · simp [h1, h2, hne, hlt]

/-- Witness for C1 at a concrete state: one pending question and
iteration_count 3 ≥ max_iterations 3 forces "finish". -/
theorem should_continue_finish_iff_witness :
    should_continue 3 { baseState with
      iteration_count := 3,
      research_questions := [mkQ 1 "q1" "pending" 0 none] } = "finish" :=
  (should_continue_finish_iff 3 _).1.mpr (by right; decide)

/-- C2: one GapAnalysis pass increments iteration_count by exactly 1, both on
the no-op branch (no pending questions) and on the gap-computing branch, and N
chained passes add exactly N. -/
theorem gap_analysis_increments_iteration :
    (∀ (g : List Gap) (u : Usage) (s : ResearchState),
      (gap_analysis_node g u s).iteration_count = s.iteration_count + 1)
    ∧ (∀ (outs : Nat → List Gap × Usage) (n : Nat) (s : ResearchState),
      (gap_analysis_passes outs n s).iteration_count = s.iteration_count + n) := by
  have h1 : ∀ (g : List Gap) (u : Usage) (s : ResearchState),
      (gap_analysis_node g u s).iteration_count = s.iteration_count + 1 := by
    intro g u s
    simp only [gap_analysis_node]
    split <;> rfl
  refine ⟨h1, ?_⟩
  intro outs n
  induction n with
  | zero => intro s; simp [gap_analysis_passes]
  | succ k ih =>
      intro s
      have := ih (gap_analysis_node (outs k).1 (outs k).2 s)
      simp [gap_analysis_passes, this, h1]
      omega

/-- C3 counterexample: with URL-identical web and academic branch results, the
merged sources keep both copies, and swapping the application order changes
the resulting list, refuting set-union-by-URL and order-independence of the
final collection. -/
theorem merge_branch_sources_keeps_duplicate_urls :
    (merge_branch_sources []
        [{ url := "https://example.org/x", title := "web copy", snippet := "",
           quality_score := 1, source_type := "web" }]
        [{ url := "https://example.org/x", title := "academic copy", snippet := "",
           quality_score := 1, source_type := "academic" }]).length = 2
    ∧ merge_branch_sources []
        [{ url := "https://example.org/x", title := "web copy", snippet := "",
           quality_score := 1, source_type := "web" }]
        [{ url := "https://example.org/x", title := "academic copy", snippet := "",
           quality_score := 1, source_type := "academic" }] ≠
      merge_branch_sources []
        [{ url := "https://example.org/x", title := "academic copy", snippet := "",
           quality_score := 1, source_type := "academic" }]
        [{ url := "https://example.org/x", title := "web copy", snippet := "",
           quality_score := 1, source_type := "web" }] := by
  decide

/-- C3 amended: applying the two discovery branches' source outputs is plain
list concatenation (operator.add): concatenation is associative and the
multiset of accumulated sources is independent of which branch is applied
first, but the list is not deduplicated by URL - every occurrence is kept, so
per-source counts add, and the list order is the application order. -/
theorem merge_branch_sources_concat_spec (prior web academic : List SourceMetadata) :
    merge_branch_sources prior web academic = prior ++ web ++ academic
    ∧ (merge_branch_sources prior web academic).Perm (merge_branch_sources prior academic web)
    ∧ (∀ a b c : List SourceMetadata,
        sources_reducer (sources_reducer a b) c = sources_reducer a (sources_reducer b c))
    ∧ (∀ src : SourceMetadata,
        (merge_branch_sources prior web academic).count src =
          prior.count src + web.count src + academic.count src) := by
  refine ⟨rfl, ?_, ?_, ?_⟩
  · show (prior ++ web ++ academic).Perm (prior ++ academic ++ web)
    rw [List.append_assoc prior web academic, List.append_assoc prior academic web]
    exact List.Perm.append_left prior List.perm_append_comm
  · intro a b c
    show (a ++ b) ++ c = a ++ (b ++ c)
    exact List.append_assoc a b c
  · intro src
    show ((prior ++ web) ++ academic).count src = _
    rw [List.count_append, List.count_append]

/-- Identity of markAnalyzed on id and question text. -/
theorem markAnalyzed_preserves_id_question (q : ResearchQuestion) :
    (markAnalyzed q).id = q.id ∧ (markAnalyzed q).question = q.question := by
  unfold markAnalyzed
  split <;> exact ⟨rfl, rfl⟩

/-- C4 counterexample: a planning pass at iteration 1 with an empty gap list
deletes the whole existing question list (the fallback branch replaces it with
a fresh decomposition, empty here), so the transition is not append-only. -/
theorem empty_gap_replan_deletes_questions :
    replanState.research_questions = [mkQ 1 "original question" "analyzed" 0 none]
    ∧ (decompose_node [] [] [] replanState).research_questions = [] := by
  decide

/-- C4 amended: research_questions is preserved (same id and text, statuses
possibly flipped to analyzed) by every node transition except the planning
pass that runs with iteration_count > 0 and an empty gap list, which replaces
the question list with a fresh topic decomposition; the discovery,
knowledge-structuring, gap-analysis and synthesis transitions never change the
question list at all. -/
theorem questions_append_only_except_replan :
    (∀ mgi q u s, (web_search_node mgi q u s).research_questions = s.research_questions)
    ∧ (∀ mgi a u s, (academic_node mgi a u s).research_questions = s.research_questions)
    ∧ (∀ e u s, (knowledge_graph_node e u s).research_questions = s.research_questions)
    ∧ (∀ g u s, (gap_analysis_node g u s).research_questions = s.research_questions)
    ∧ (∀ w u s, (synthesis_node w u s).research_questions = s.research_questions)
    ∧ (∀ gq dq u s, s.iteration_count = 0 ∨ s.identified_gaps ≠ [] →
        ∀ q ∈ s.research_questions, ∃ q2 ∈ (decompose_node gq dq u s).research_questions,
          q2.id = q.id ∧ q2.question = q.question) := by
  refine ⟨?_, ?_, ?_, ?_, ?_, ?_⟩
  · intro mgi q u s; simp only [web_search_node]; split <;> rfl
  · intro mgi a u s; simp only [academic_node]; split <;> rfl
  · intro e u s; simp only [knowledge_graph_node]; split <;> rfl
  · intro g u s; simp only [gap_analysis_node]; split <;> rfl
  · intro w u s; rfl
  · intro gq dq u s h q hq
    by_cases hb1 : s.identified_gaps ≠ [] ∧ 0 < s.iteration_count
    · refine ⟨markAnalyzed q, ?_, (markAnalyzed_preserves_id_question q).1,
        (markAnalyzed_preserves_id_question q).2⟩
      unfold decompose_node
      rw [if_pos hb1]
      exact List.mem_append_left _ (List.mem_map_of_mem markAnalyzed hq)
    · by_cases hb2 : s.iteration_count = 0 ∧ s.research_questions ≠ []
      · refine ⟨q, ?_, rfl, rfl⟩
        unfold decompose_node
        rw [if_neg hb1, if_pos hb2]
        exact hq
      · exfalso
        rcases h with h0 | hg
        · exact hb2 ⟨h0, fun hnil => by rw [hnil] at hq; exact (List.not_mem_nil q) hq⟩
        · have h0 : s.iteration_count = 0 := by
            by_contra hne
            exact hb1 ⟨hg, Nat.pos_of_ne_zero hne⟩
          exact hb2 ⟨h0, fun hnil => by rw [hnil] at hq; exact (List.not_mem_nil q) hq⟩

/-- Witness instantiating the planning conjunct of the append-only theorem at
a concrete manual-plan state. -/
theorem questions_append_only_except_replan_witness :
    ∃ q2 ∈ (decompose_node [] [] [] manualState).research_questions,
      q2.id = (mkQ 1 "manual question" "pending" 0 none).id ∧
        q2.question = (mkQ 1 "manual question" "pending" 0 none).question :=
  questions_append_only_except_replan.2.2.2.2.2 [] [] [] manualState (Or.inl rfl)
    (mkQ 1 "manual question" "pending" 0 none) (by decide)

/-- C6 counterexample: a planning pass over an empty gap list at iteration 1
creates a fresh question from the topic decomposition and drops the existing
analyzed question, so the empty-gap planning step is not a no-op frame. -/
theorem empty_gap_replan_creates_and_replaces :
    (decompose_node [] [freshQ] [] replanState).research_questions =
      [{ id := 1, question := "fresh topic decomposition", priority := 1,
         status := "pending", depth := 0, parent_id := none }]
    ∧ mkQ 1 "original question" "analyzed" 0 none ∈ replanState.research_questions
    ∧ mkQ 1 "original question" "analyzed" 0 none ∉
        (decompose_node [] [freshQ] [] replanState).research_questions := by
  decide

/-- C6 amended: with an empty gap list, a planning pass at iteration 0 with a
plan present adds no questions and leaves every existing question, statuses
included, unchanged; but at iteration > 0 an empty gap list routes planning to
the fallback branch, which replaces the question list with a fresh initial
decomposition of the topic instead of leaving it unchanged. -/
theorem empty_gap_planning_frame (gq : List GapQuestionData) (dq : List InitQuestionData)
    (u : Usage) (s : ResearchState) (hg : s.identified_gaps = []) :
    (s.iteration_count = 0 → s.research_questions ≠ [] →
      (decompose_node gq dq u s).research_questions = s.research_questions)
    ∧ (0 < s.iteration_count →
      (decompose_node gq dq u s).research_questions = formatInitial dq) := by
  have hb1 : ¬ (s.identified_gaps ≠ [] ∧ 0 < s.iteration_count) := by
    intro hc
    exact hc.1 hg
  constructor
  · intro h0 hne
    unfold decompose_node
    rw [if_neg hb1, if_pos ⟨h0, hne⟩]
  · intro hpos
    have hb2 : ¬ (s.iteration_count = 0 ∧ s.research_questions ≠ []) := by
      intro hc
      omega
    unfold decompose_node
    rw [if_neg hb1, if_neg hb2]

/-- Witness instantiating the iteration-0 conjunct of the empty-gap frame
theorem at a concrete manual-plan state. -/
theorem empty_gap_planning_frame_witness :
    (decompose_node [] [] [] manualState).research_questions =
      manualState.research_questions :=
  (empty_gap_planning_frame [] [] [] manualState rfl).1 rfl (by decide)

/-- Length of the follow-up loop output. -/
theorem buildFollowUps_length (cur : List ResearchQuestion) (m : Nat)
    (data : List GapQuestionData) :
    (buildFollowUps cur m data).length = data.length := by
  induction data generalizing m with
  | nil => rfl
  | cons d rest ih => simp [buildFollowUps, ih]

/-- Ids assigned by the follow-up loop continue consecutively after max_id. -/
theorem buildFollowUps_ids (cur : List ResearchQuestion) (m : Nat)
    (data : List GapQuestionData) :
    (buildFollowUps cur m data).map (fun q => q.id) = List.range' (m + 1) data.length := by
  induction data generalizing m with
  | nil => rfl
  | cons d rest ih => simp [buildFollowUps, List.range'_succ, mkFollowUp, ih]

/-- Every follow-up the loop emits is built from some candidate. -/
theorem buildFollowUps_shape (cur : List ResearchQuestion) (m : Nat)
    (data : List GapQuestionData) :
    ∀ nq ∈ buildFollowUps cur m data, ∃ d ∈ data, ∃ k, nq = mkFollowUp cur k d := by
  induction data generalizing m with
  | nil => intro nq h; simp [buildFollowUps] at h
  | cons d rest ih =>
      intro nq h
      rcases List.mem_cons.mp h with h | h
      · exact ⟨d, List.mem_cons_self d rest, m + 1, h⟩
      · rcases ih (m + 1) nq h with ⟨d2, hd2, k, hk⟩
        exact ⟨d2, List.mem_cons_of_mem d hd2, k, hk⟩

/-- Every candidate yields a follow-up in the loop output. -/
theorem buildFollowUps_cover (cur : List ResearchQuestion) (m : Nat)
    (data : List GapQuestionData) :
    ∀ d ∈ data, ∃ nq ∈ buildFollowUps cur m data,
      nq.question = d.question ∧ nq.parent_id = d.related_question_id := by
  induction data generalizing m with
  | nil => intro d h; simp at h
  | cons d0 rest ih =>
      intro d h
      rcases List.mem_cons.mp h with rfl | h
      · exact ⟨mkFollowUp cur (m + 1) d, List.mem_cons_self _ _, rfl, rfl⟩
      · rcases ih (m + 1) d h with ⟨nq, hin, hq, hp⟩
        exact ⟨nq, List.mem_cons_of_mem _ hin, hq, hp⟩

/-- Depth of a follow-up whose truthy parent id resolves. -/
theorem mkFollowUp_depth (cur : List ResearchQuestion) (k : Nat) (d : GapQuestionData)
    (rid : Nat) (hrid : d.related_question_id = some rid) (h0 : rid ≠ 0)
    (p : ResearchQuestion) (hp : cur.find? (fun q => q.id == rid) = some p) :
    (mkFollowUp cur k d).depth = p.depth + 1 := by
  simp [mkFollowUp, hrid, h0, hp]

/-- Follow-up candidates inherit some gap's related question id. -/
theorem generate_from_gaps_mem (f : Gap → List (String × Option Nat)) (gaps : List Gap) :
    ∀ d ∈ generate_from_gaps f gaps,
      ∃ g ∈ gaps, d.related_question_id = g.related_question_id := by
  intro d hd
  unfold generate_from_gaps at hd
  rcases List.mem_flatMap.mp hd with ⟨g, hg, hmem⟩
  rcases List.mem_map.mp hmem with ⟨t, _, rfl⟩
  exact ⟨g, hg, rfl⟩

/-- Every gap with a non-empty derivation is represented among the candidates. -/
theorem generate_from_gaps_cover (f : Gap → List (String × Option Nat)) (gaps : List Gap)
    (h : ∀ g ∈ gaps, f g ≠ []) :
    ∀ g ∈ gaps, ∃ d ∈ generate_from_gaps f gaps,
      d.related_question_id = g.related_question_id := by
  intro g hg
  rcases List.exists_mem_of_ne_nil (f g) (h g hg) with ⟨t, ht⟩
  refine ⟨{ question := t.1, priority := t.2, related_question_id := g.related_question_id },
    ?_, rfl⟩
  unfold generate_from_gaps
  exact List.mem_flatMap.mpr ⟨g, hg, List.mem_map.mpr ⟨t, ht, rfl⟩⟩

/-- At least one candidate per gap when every derivation is non-empty. -/
theorem generate_from_gaps_length (f : Gap → List (String × Option Nat)) (gaps : List Gap)
    (h : ∀ g ∈ gaps, f g ≠ []) :
    gaps.length ≤ (generate_from_gaps f gaps).length := by
  induction gaps with
  | nil => simp [generate_from_gaps]
  | cons g rest ih =>
      have h1 : 0 < (f g).length :=
        List.length_pos.mpr (h g (List.mem_cons_self g rest))
      have h2 := ih (fun g2 hg2 => h g2 (List.mem_cons_of_mem g hg2))
      unfold generate_from_gaps at h2 ⊢
      rw [List.flatMap_cons, List.length_append, List.length_map]
      simp only [List.length_cons]
      omega

/-- C5: a planning pass at iteration > 0 over a non-empty gap list, with the
spec-modelled generate_from_gaps deriving at least one follow-up per gap,
marks every previously pending question analyzed, keeps the old questions in
place, and appends follow-ups whose ids continue from the maximum existing id,
whose parent_id is their gap's related_question_id, and whose depth is their
resolved parent's depth plus one. -/
theorem follow_up_expansion (f : Gap → List (String × Option Nat))
    (dq : List InitQuestionData) (u : Usage) (s : ResearchState)
    (h1 : s.identified_gaps ≠ []) (h2 : 0 < s.iteration_count)
    (h3 : ∀ g ∈ s.identified_gaps, f g ≠ []) :
    follow_up_expansion_spec f dq u s := by
  have hbranch :
      (decompose_node (generate_from_gaps f s.identified_gaps) dq u s).research_questions =
        s.research_questions.map markAnalyzed ++
          buildFollowUps s.research_questions (maxQuestionId s.research_questions)
            (generate_from_gaps f s.identified_gaps) := by
    unfold decompose_node
    rw [if_pos ⟨h1, h2⟩]
  have hmaplen : (s.research_questions.map markAnalyzed).length = s.research_questions.length :=
    List.length_map _ _
  have htake :
      (s.research_questions.map markAnalyzed ++
          buildFollowUps s.research_questions (maxQuestionId s.research_questions)
            (generate_from_gaps f s.identified_gaps)).take s.research_questions.length =
        s.research_questions.map markAnalyzed := by
    rw [← hmaplen]
    exact List.take_left _ _
  have hdrop :
      (s.research_questions.map markAnalyzed ++
          buildFollowUps s.research_questions (maxQuestionId s.research_questions)
            (generate_from_gaps f s.identified_gaps)).drop s.research_questions.length =
        buildFollowUps s.research_questions (maxQuestionId s.research_questions)
          (generate_from_gaps f s.identified_gaps) := by
    rw [← hmaplen]
    exact List.drop_left _ _
  simp only [follow_up_expansion_spec, hbranch, htake, hdrop]
  refine ⟨trivial, ?_, ?_, ?_, ?_, ?_, ?_⟩
  · intro q hq hst
    constructor
    · exact List.mem_append_left _ (List.mem_map_of_mem markAnalyzed hq)
    · simp [markAnalyzed, hst]
  · rw [buildFollowUps_length]
    exact generate_from_gaps_length f s.identified_gaps h3
  · rw [buildFollowUps_ids, buildFollowUps_length]
  · intro nq hnq
    rcases buildFollowUps_shape _ _ _ nq hnq with ⟨d, hd, k, rfl⟩
    refine ⟨rfl, ?_⟩
    rcases generate_from_gaps_mem f s.identified_gaps d hd with ⟨g, hg, hrel⟩
    exact ⟨g, hg, hrel⟩
  · intro g hg
    rcases generate_from_gaps_cover f s.identified_gaps h3 g hg with ⟨d, hd, hrel⟩
    rcases buildFollowUps_cover s.research_questions
      (maxQuestionId s.research_questions) _ d hd with ⟨nq, hin, _, hp⟩
    exact ⟨nq, hin, by rw [hp, hrel]⟩
  · intro nq hnq rid hrid h0 p hp
    rcases buildFollowUps_shape _ _ _ nq hnq with ⟨d, _, k, rfl⟩
    have hrel : d.related_question_id = some rid := hrid
    exact mkFollowUp_depth _ k d rid hrel h0 p hp

/-- Witness instantiating the expansion theorem at a three-question state with
one gap tied to question 2. -/
theorem follow_up_expansion_witness :
    follow_up_expansion_spec exFollowUps [] [] exGapState :=
  follow_up_expansion exFollowUps [] [] exGapState (by decide) (by decide) (by decide)

/-- C7: extract_json_from_text is an ordered chain in which the fenced tier's
capture is parsed whenever the fence pattern matches, each later pattern is
consulted only when every earlier pattern failed to match, and the raw parse
runs last; _extract_queries chains its JSON tier, quoted-phrase tier and
comma-split tier the same way, each later tier tried exactly when the earlier
ones produced nothing usable. Every modelled function is total, so a fully
malformed response reaches none or a degraded list, never an escaping
exception (CPython resource exhaustion aside). -/
theorem extraction_fallback_chain :
    (∀ t g, fence_search t = some g → extract_json_from_text t = json_loads g)
    ∧ (∀ t g, fence_search t = none → listm_search t = some g →
        extract_json_from_text t = json_loads g)
    ∧ (∀ t g, fence_search t = none → listm_search t = none → objm_search t = some g →
        extract_json_from_text t = json_loads g)
    ∧ (∀ t, fence_search t = none → listm_search t = none → objm_search t = none →
        extract_json_from_text t = json_loads t)
    ∧ (∀ c, queriesFromJson c ≠ [] → extract_queries c = queriesFromJson c)
    ∧ (∀ c, queriesFromJson c = [] → quotedTier c ≠ [] → extract_queries c = quotedTier c)
    ∧ (∀ c, queriesFromJson c = [] → quotedTier c = [] → extract_queries c = commaTier c) := by
  refine ⟨?_, ?_, ?_, ?_, ?_, ?_, ?_⟩
  · intro t g h
    unfold extract_json_from_text
    rw [h]
  · intro t g h1 h2
    unfold extract_json_from_text
    rw [h1, h2]
  · intro t g h1 h2 h3
    unfold extract_json_from_text
    rw [h1, h2, h3]
  · intro t h1 h2 h3
    unfold extract_json_from_text
    rw [h1, h2, h3]
  · intro c h
    cases hq : queriesFromJson c with
    | nil => exact absurd hq h
    | cons a l => simp [extract_queries, hq]
  · intro c h1 h2
    cases hq : quotedTier c with
    | nil => exact absurd hq h2
    | cons a l => simp [extract_queries, h1, hq]
  · intro c h1 h2
    simp [extract_queries, h1, h2]

/-- Witness instantiating the first tier of the extraction chain on a concrete
fenced reply. -/
theorem extraction_fallback_chain_witness :
    extract_json_from_text "```[1]```" = json_loads "[1]" :=
  extraction_fallback_chain.1 "```[1]```" "[1]" (by decide)

/-- Indexing a mapped list with defaults, under the length bound. -/
theorem getD_map_of_lt {α β : Type} (f : α → β) (l : List α) (i : Nat) (d1 : β) (d2 : α)
    (h : i < l.length) : (l.map f).getD i d1 = f (l.getD i d2) := by
  induction l generalizing i with
  | nil => simp at h
  | cons a t ih =>
      cases i with
      | zero => rfl
      | succ k =>
          simp only [List.map_cons, List.getD_cons_succ]
          exact ih k (by simpa using h)

/-- C8: synthesis writes exactly one section per question ever created, the
sections follow ascending question id over a permutation of the whole question
list, the resulting state is complete, each section is determined by its own
question's writer outcome alone, and a failed writer call yields the
placeholder error string for that section only. -/
theorem synthesis_one_section_per_question (w : ResearchQuestion → Except String String)
    (u : Usage) (s : ResearchState) :
    (synthesis_node w u s).is_complete = true
    ∧ (report_sections w s.research_questions).length = s.research_questions.length
    ∧ (sortQuestionsById s.research_questions).Perm s.research_questions
    ∧ List.Sorted (fun a b => a.id ≤ b.id) (sortQuestionsById s.research_questions)
    ∧ (∀ i, i < s.research_questions.length →
        (report_sections w s.research_questions).getD i "" =
          "## " ++ ((sortQuestionsById s.research_questions).getD i defaultQ).question ++
            "\n\n" ++ sectionWriterRun (w ((sortQuestionsById s.research_questions).getD i defaultQ)))
    ∧ (∀ e, sectionWriterRun (Except.error e) = "Error drafting section: " ++ e) := by
  have hlen : (sortQuestionsById s.research_questions).length = s.research_questions.length :=
    (List.perm_insertionSort _ _).length_eq
  refine ⟨rfl, ?_, List.perm_insertionSort _ _, List.sorted_insertionSort _ _, ?_, fun e => rfl⟩
  · rw [report_sections, List.length_map, hlen]
  · intro i hi
    exact getD_map_of_lt _ _ i "" defaultQ (by rw [hlen]; exact hi)

/-- Witness instantiating the section shape at index 0 of a one-question state
whose writer call fails. -/
theorem synthesis_one_section_per_question_witness :
    (report_sections (fun _ => Except.error "llm down")
        [mkQ 1 "topic question" "pending" 0 none]).getD 0 "" =
      "## " ++ ((sortQuestionsById [mkQ 1 "topic question" "pending" 0 none]).getD 0
          defaultQ).question ++ "\n\n" ++
        sectionWriterRun ((fun _ => Except.error "llm down")
          ((sortQuestionsById [mkQ 1 "topic question" "pending" 0 none]).getD 0 defaultQ)) :=
  (synthesis_one_section_per_question (fun _ => Except.error "llm down") []
    { baseState with research_questions := [mkQ 1 "topic question" "pending" 0 none] }).2.2.2.2.1
    0 (by decide)

/-- Reservation left by one call: the call's completion time plus the enforced
interval, in both branches. -/
theorem wait_for_slot_reserved (d now st : ℚ) :
    (wait_for_slot d now st).2 = (now + (wait_for_slot d now st).1) + d := by
  unfold wait_for_slot
  split <;> ring

/-- One emitted pair per call. -/
theorem runSlots_length (d st : ℚ) (arrivals : List ℚ) :
    (runSlots d st arrivals).length = arrivals.length := by
  induction arrivals generalizing st with
  | nil => rfl
  | cons now rest ih => simp [runSlots, ih]

/-- Head of a non-empty run: the first completion is no earlier than the
initial reservation, and the first reserved time is that completion plus the
interval. -/
theorem runSlots_head (d st : ℚ) (arrivals : List ℚ) (h : arrivals ≠ []) :
    st ≤ ((runSlots d st arrivals).getD 0 (0, 0)).1
    ∧ ((runSlots d st arrivals).getD 0 (0, 0)).2 =
        ((runSlots d st arrivals).getD 0 (0, 0)).1 + d := by
  cases arrivals with
  | nil => exact absurd rfl h
  | cons now rest =>
      simp only [runSlots, List.getD_cons_zero]
      unfold wait_for_slot
      split
      · constructor
        · have : now + (st - now) = st := by ring
          rw [this]
        · ring
      · next hge =>
          constructor
          · have h2 := not_lt.mp hge
            show st ≤ now + 0
            simpa using h2
          · ring

/-- Adjacent spacing in a run: each completion is at least one interval after
the previous completion, and likewise for the reserved times. -/
theorem runSlots_adjacent (d : ℚ) (arrivals : List ℚ) : ∀ (st : ℚ) (i : Nat),
    i + 1 < (runSlots d st arrivals).length →
    ((runSlots d st arrivals).getD i (0, 0)).1 + d ≤
        ((runSlots d st arrivals).getD (i + 1) (0, 0)).1
    ∧ ((runSlots d st arrivals).getD i (0, 0)).2 + d ≤
        ((runSlots d st arrivals).getD (i + 1) (0, 0)).2 := by
  induction arrivals with
  | nil => intro st i h; simp [runSlots] at h
  | cons now rest ih =>
      intro st i h
      cases i with
      | zero =>
          have hrest : rest ≠ [] := by
            intro hnil
            rw [hnil] at h
            simp [runSlots] at h
          have hres := wait_for_slot_reserved d now st
          have hhead := runSlots_head d (wait_for_slot d now st).2 rest hrest
          simp only [runSlots, List.getD_cons_zero, List.getD_cons_succ]
          constructor
          · linarith [hhead.1]
          · linarith [hhead.1, hhead.2]
      | succ k =>
          have hb : k + 1 < (runSlots d (wait_for_slot d now st).2 rest).length := by
            have : (runSlots d st (now :: rest)).length =
                (runSlots d (wait_for_slot d now st).2 rest).length + 1 := by
              simp [runSlots]
            omega
          have := ih (wait_for_slot d now st).2 k hb
          simp only [runSlots, List.getD_cons_succ]
          exact this

/-- Chained spacing: the completion and reservation n calls later are at least
n intervals later. -/
theorem runSlots_chain (d : ℚ) (arrivals : List ℚ) (st : ℚ) : ∀ (n i : Nat),
    i + n < (runSlots d st arrivals).length →
    ((runSlots d st arrivals).getD i (0, 0)).1 + (n : ℚ) * d ≤
        ((runSlots d st arrivals).getD (i + n) (0, 0)).1
    ∧ ((runSlots d st arrivals).getD i (0, 0)).2 + (n : ℚ) * d ≤
        ((runSlots d st arrivals).getD (i + n) (0, 0)).2 := by
  intro n
  induction n with
  | zero => intro i h; constructor <;> simp
  | succ k ih =>
      intro i h
      have hk := ih i (by omega)
      have hadj := runSlots_adjacent d arrivals st (i + k) (by omega)
      have hix : i + (k + 1) = (i + k) + 1 := by omega
      rw [hix]
      push_cast
      constructor
      · have h1 := hk.1
        have h2 := hadj.1
        linarith
      · have h1 := hk.2
        have h2 := hadj.2
        linarith

/-- C9: in the rational-time model of the lock-ordered reservation protocol,
any two calls complete at least their index distance times the enforced
interval apart (so never closer than one interval), the reserved
next_available_time values are spaced the same way, and the whole run spans at
least (K-1) intervals between its first and last completion. -/
theorem rate_limiter_spacing (delay_ms : Int) (t0 : ℚ) (arrivals : List ℚ)
    (hd : 0 ≤ delay_ms) (i j : Nat) (hij : i < j)
    (hj : j < (runSlots (SourceManager.init delay_ms t0).enforced_delay
        (SourceManager.init delay_ms t0).next_available_time arrivals).length) :
    slot_spacing_bound (SourceManager.init delay_ms t0).enforced_delay
      (runSlots (SourceManager.init delay_ms t0).enforced_delay
        (SourceManager.init delay_ms t0).next_available_time arrivals) i j := by
  have hd0 : (0 : ℚ) ≤ (SourceManager.init delay_ms t0).enforced_delay := by
    show (0 : ℚ) ≤ ((delay_ms : ℚ) / 1000) * 2
    have hq : (0 : ℚ) ≤ (delay_ms : ℚ) := by exact_mod_cast hd
    have := div_nonneg hq (by norm_num : (0 : ℚ) ≤ 1000)
    linarith
  have hchain := runSlots_chain (SourceManager.init delay_ms t0).enforced_delay arrivals
    (SourceManager.init delay_ms t0).next_available_time (j - i) i (by omega)
  have hji : i + (j - i) = j := by omega
  rw [hji] at hchain
  have hone : (1 : ℚ) ≤ ((j - i : Nat) : ℚ) := by
    have : 1 ≤ j - i := by omega
    exact_mod_cast this
  have hmul : (SourceManager.init delay_ms t0).enforced_delay ≤
      ((j - i : Nat) : ℚ) * (SourceManager.init delay_ms t0).enforced_delay :=
    le_mul_of_one_le_left hd0 hone
  have hlenpos : 0 < (runSlots (SourceManager.init delay_ms t0).enforced_delay
      (SourceManager.init delay_ms t0).next_available_time arrivals).length := by omega
  have hlast := runSlots_chain (SourceManager.init delay_ms t0).enforced_delay arrivals
    (SourceManager.init delay_ms t0).next_available_time
    ((runSlots (SourceManager.init delay_ms t0).enforced_delay
      (SourceManager.init delay_ms t0).next_available_time arrivals).length - 1) 0 (by omega)
  rw [Nat.zero_add] at hlast
  refine ⟨hchain.1, by linarith [hchain.1], hchain.2, by linarith [hchain.2], hlast.1⟩

/-- Witness instantiating the spacing theorem on a three-call run with the
orchestrator's 500 ms configuration. -/
theorem rate_limiter_spacing_witness :
    slot_spacing_bound (SourceManager.init 500 0).enforced_delay
      (runSlots (SourceManager.init 500 0).enforced_delay
        (SourceManager.init 500 0).next_available_time [0, 0, 1]) 0 1 :=
  rate_limiter_spacing 500 0 [0, 0, 1] (by decide) 0 1 (by decide) (by decide)

/-- C10: the constructor stores requested_delay = delay_ms / 1000 seconds and
an enforced interval of exactly twice that; a 500 ms configuration therefore
enforces 1.0 s, not 0.5 s; every reservation advances next_available_time to
the call's completion plus the enforced interval, and an early caller advances
the reservation by exactly the enforced interval. -/
theorem enforced_delay_doubles_requested (delay_ms : Int) (t0 : ℚ) :
    (SourceManager.init delay_ms t0).requested_delay = (delay_ms : ℚ) / 1000
    ∧ (SourceManager.init delay_ms t0).enforced_delay =
        2 * (SourceManager.init delay_ms t0).requested_delay
    ∧ (SourceManager.init delay_ms t0).enforced_delay = 2 * ((delay_ms : ℚ) / 1000)
    ∧ (SourceManager.init 500 0).enforced_delay = 1
    ∧ (∀ now st : ℚ,
        (wait_for_slot (SourceManager.init delay_ms t0).enforced_delay now st).2 =
          (now + (wait_for_slot (SourceManager.init delay_ms t0).enforced_delay now st).1) +
            (SourceManager.init delay_ms t0).enforced_delay)
    ∧ (∀ now st : ℚ, now < st →
        (wait_for_slot (SourceManager.init delay_ms t0).enforced_delay now st).2 =
          st + (SourceManager.init delay_ms t0).enforced_delay) := by
  refine ⟨rfl, ?_, ?_, ?_, ?_, ?_⟩
  · show ((delay_ms : ℚ) / 1000) * 2 = 2 * ((delay_ms : ℚ) / 1000)
    ring
  · show ((delay_ms : ℚ) / 1000) * 2 = 2 * ((delay_ms : ℚ) / 1000)
    ring
  · show ((500 : ℚ) / 1000) * 2 = 1
    norm_num
  · intro now st
    exact wait_for_slot_reserved _ now st
  · intro now st h
    unfold wait_for_slot
    rw [if_pos h]

/-- Witness instantiating the early-caller reservation advance at concrete
times. -/
theorem enforced_delay_doubles_requested_witness :
    (wait_for_slot (SourceManager.init 500 0).enforced_delay 0 5).2 =
      5 + (SourceManager.init 500 0).enforced_delay :=
  (enforced_delay_doubles_requested 500 0).2.2.2.2.2 0 5 (by decide)
